import Mathlib

/-
  Verification development for the TinyKv in-process key-value cache.

  The embedding mirrors the TypeScript class TinyKv: the two JS Maps become
  association lists, times and deadlines are epoch-millisecond naturals, the
  pluggable standard-schema validator becomes a function into a success/failure
  result type, and every method that may mutate the instance returns its result
  together with the post-call state.  The background timer and console logging
  are outside the state model; the sweep's random shuffle is supplied as an
  explicit key-order parameter.
-/

namespace TinyKv

/-- Result shape of the pluggable standard-schema validator: a success carrying
the (possibly transformed) output value, or a failure carrying the structured
issue list. -/
inductive VResult (α : Type) where
  | success (value : α)
  | failure (issues : List String)
deriving DecidableEq

/-- JS Map.prototype.get over an association-list model of a Map. -/
def mapGet {K α : Type} [DecidableEq K] : List (K × α) → K → Option α
  | [], _ => none
  | (k0, v0) :: rest, k => if k0 = k then some v0 else mapGet rest k

/-- JS Map.prototype.has. -/
def mapHas {K α : Type} [DecidableEq K] (m : List (K × α)) (k : K) : Bool :=
  (mapGet m k).isSome

/-- JS Map.prototype.set: replaces the value at an existing key, otherwise
appends a fresh entry. -/
def mapSet {K α : Type} [DecidableEq K] : List (K × α) → K → α → List (K × α)
  | [], k, v => [(k, v)]
  | (k0, v0) :: rest, k, v =>
      if k0 = k then (k, v) :: rest else (k0, v0) :: mapSet rest k v

/-- JS Map.prototype.delete (its Boolean result is unused by the source). -/
def mapDelete {K α : Type} [DecidableEq K] : List (K × α) → K → List (K × α)
  | [], _ => []
  | (k0, v0) :: rest, k =>
      if k0 = k then mapDelete rest k else (k0, v0) :: mapDelete rest k

/-- The instance state of a TinyKv: the private fields storage (key to value)
and exMap (key to absolute expiration instant in epoch ms). -/
structure KvState (K V : Type) where
  storage : List (K × V)
  exMap : List (K × Nat)
deriving DecidableEq

/-- State of a freshly constructed TinyKv: both maps empty. -/
def emptyState (K V : Type) : KvState K V := ⟨[], []⟩

/-- Construction-time configuration: the optional key schema and value schema,
each modelled as its validate capability. -/
structure KvConfig (K V : Type) where
  keySchema : Option (K → VResult K)
  valueSchema : Option (V → VResult V)

/-- Configuration with neither schema supplied. -/
def noSchemas (K V : Type) : KvConfig K V := ⟨none, none⟩

variable {K V : Type} [DecidableEq K]

/-- isExpired: undefined (none) when the key has no entry in the expiration
index, otherwise the strict comparison now > deadline.  The source body only
reads the two maps, so the operation is pure and returns no state. -/
def isExpired (s : KvState K V) (now : Nat) (k : K) : Option Bool :=
  match mapGet s.exMap k with
  | none => none
  | some d => some (decide (now > d))

/-- delete: removes the key from both maps unconditionally. -/
def deleteOp (s : KvState K V) (k : K) : KvState K V :=
  ⟨mapDelete s.storage k, mapDelete s.exMap k⟩

/-- get: when the lazy check is truthy (only the value some true is truthy in
JS) the key is purged via delete and null (none) is returned; otherwise the
stored value, with absence collapsed to null by the nullish-coalescing. -/
def getOp (s : KvState K V) (now : Nat) (k : K) : Option V × KvState K V :=
  if isExpired s now k = some true then (none, deleteOp s k)
  else (mapGet s.storage k, s)

/-- exists: same lazy purge as get, but returns storage membership. -/
def existsOp (s : KvState K V) (now : Nat) (k : K) : Bool × KvState K V :=
  if isExpired s now k = some true then (false, deleteOp s k)
  else (mapHas s.storage k, s)

/-- getExpiration: undefined (plus a console diagnostic, outside the model)
when no deadline is recorded, otherwise the recorded deadline. -/
def getExpiration (s : KvState K V) (k : K) : Option Nat :=
  mapGet s.exMap k

/-- cleanup: clears both maps (the recurring-timer cancellation is outside the
state model). -/
def cleanupOp (_s : KvState K V) : KvState K V := ⟨[], []⟩

/-- The private validate helper: a failure result throws an Error carrying the
serialized issue list, a success result yields its value; modelled as Except
with the issue list as the error payload. -/
def validate {α : Type} (f : α → VResult α) (input : α) : Except (List String) α :=
  match f input with
  | .success v => .ok v
  | .failure issues => .error issues

/-- The conditional validation steps of set: a configured schema validates and
possibly transforms the input, an absent schema passes it through. -/
def validateOpt {α : Type} (sch : Option (α → VResult α)) (input : α) :
    Except (List String) α :=
  match sch with
  | none => Except.ok input
  | some f => validate f input

/-- The expiration-index write of set: the ex option is tested for JS
truthiness, and a number is truthy exactly when it is nonzero, so a deadline is
recorded only for a present, nonzero ex option. -/
def exUpdate (exMap : List (K × Nat)) (finalKey : K) : Option Nat → List (K × Nat)
  | some e => if e ≠ 0 then mapSet exMap finalKey e else exMap
  | none => exMap

/-- set: validates the key and then the value when schemas are configured (a
validation throw aborts the call before any write), then writes the value and
conditionally the deadline.  The source's self-return is dropped; the new state
is the result. -/
def setOp (cfg : KvConfig K V) (s : KvState K V) (k : K) (v : V)
    (opts : Option Nat) : Except (List String) (KvState K V) :=
  match validateOpt cfg.keySchema k with
  | .error e => .error e
  | .ok finalKey =>
    match validateOpt cfg.valueSchema v with
    | .error e => .error e
    | .ok finalValue =>
      .ok ⟨mapSet s.storage finalKey finalValue, exUpdate s.exMap finalKey opts⟩

/-- buildMapSample: the Math.random comparator yields some reordering of the
map's keys, supplied here as the shuffledKeys parameter.  The loop index runs
while below min(size * 0.25, length) — size * 0.25 is exact in binary floating
point — so the loop executes ceil(size / 4) times (capped by the key count,
which List.take already enforces), pairing each taken key with its mapped
deadline (undefined, i.e. none, for a key not in the map). -/
def buildMapSample (exMap : List (K × Nat)) (shuffledKeys : List K) :
    List (K × Option Nat) :=
  (shuffledKeys.take ((exMap.length + 3) / 4)).map fun k => (k, mapGet exMap k)

/-- The JS comparison currentTimestamp <= timestamp, where the timestamp read
from the sample may be undefined (a comparison with undefined is false). -/
def jsLeOpt (now : Nat) : Option Nat → Bool
  | some t => decide (now ≤ t)
  | none => false

/-- The forEach body of runActiveExpiration: each sampled entry whose recorded
timestamp satisfies currentTimestamp <= timestamp has its key deleted from both
maps and the hit counter incremented. -/
def sweepVisit (now : Nat) : KvState K V → List (K × Option Nat) → KvState K V × Nat
  | s, [] => (s, 0)
  | s, (k, d) :: rest =>
      if jsLeOpt now d then
        let r := sweepVisit now (deleteOp s k) rest
        (r.1, r.2 + 1)
      else sweepVisit now s rest

/-- Outcome of one pass of runActiveExpiration: the post-pass state, the hit
count, and the sample size used by the re-sweep guard. -/
structure SweepPass (K V : Type) where
  state : KvState K V
  hits : Nat
  sampleSize : Nat
deriving DecidableEq

/-- One pass of runActiveExpiration at a given current timestamp: draw the
sample from the expiration index, run the eviction visit, report the hit count
and sample size. -/
def sweepPass (s : KvState K V) (now : Nat) (shuffledKeys : List K) : SweepPass K V :=
  let sample := buildMapSample s.exMap shuffledKeys
  let r := sweepVisit now s sample
  ⟨r.1, r.2, sample.length⟩

/-- The re-sweep guard hitCount / sample.size >= 0.25 under JS number
semantics: with an empty sample the quotient is NaN and the comparison is
false; with a nonempty sample the comparison agrees with 4 * hits >= size
(exact for every sample size below 2^52). -/
def resweeps (r : SweepPass K V) : Bool :=
  decide (r.sampleSize ≠ 0) && decide (r.sampleSize ≤ 4 * r.hits)

/-- runActiveExpiration iterated: each recursive call reads a fresh timestamp
and draws a fresh shuffle, supplied as streams indexed by recursion depth; the
fuel bounds the recursion depth, and none means the recursion outran the
fuel. -/
def runActive : Nat → KvState K V → (Nat → Nat) → (Nat → List K) →
    Nat → Option (KvState K V)
  | 0, _, _, _, _ => none
  | fuel + 1, s, times, shuffles, i =>
      let r := sweepPass s (times i) (shuffles i)
      if resweeps r then runActive fuel r.state times shuffles (i + 1)
      else some r.state

/-- One invocation of any state-touching member of the cache, with the
observation data (current time, shuffle order) it consumes. -/
inductive KvOp (K V : Type) where
  | opGet (now : Nat) (k : K)
  | opSet (k : K) (v : V) (opts : Option Nat)
  | opDelete (k : K)
  | opExists (now : Nat) (k : K)
  | opIsExpired (now : Nat) (k : K)
  | opGetExpiration (k : K)
  | opCleanup
  | opSweep (now : Nat) (shuffledKeys : List K)

/-- The state transition of one operation.  Queries leave the state unchanged;
a set whose validation throws leaves the state unchanged (the throw precedes
every write). -/
def step (cfg : KvConfig K V) (s : KvState K V) : KvOp K V → KvState K V
  | .opGet now k => (getOp s now k).2
  | .opSet k v opts =>
      match setOp cfg s k v opts with
      | .ok s1 => s1
      | .error _ => s
  | .opDelete k => deleteOp s k
  | .opExists now k => (existsOp s now k).2
  | .opIsExpired _ _ => s
  | .opGetExpiration _ => s
  | .opCleanup => cleanupOp s
  | .opSweep now ks => (sweepPass s now ks).state

/-- The state reached from a freshly constructed cache by a sequence of
operations. -/
def run (cfg : KvConfig K V) (ops : List (KvOp K V)) : KvState K V :=
  ops.foldl (step cfg) (emptyState K V)

/-- The public method names the TinyKv class declares (beyond its
constructor). -/
def tinyKvPublicMethods : List String :=
  ["get", "set", "delete", "exists", "isExpired", "getExpiration", "cleanup"]

/-- Cross-map invariant: every key in the expiration index is present in
storage. -/
def Covered (s : KvState K V) : Prop :=
  ∀ k : K, mapGet s.exMap k ≠ none → mapGet s.storage k ≠ none

/-- A value schema rejecting every input with a single issue, exercising the
validation path on concrete runs. -/
def rejectAllSchema : Nat → VResult Nat := fun _ => VResult.failure ["rejected"]

/-- A configuration with no key schema and the all-rejecting value schema. -/
def cfgRejectValue : KvConfig Nat Nat := ⟨none, some rejectAllSchema⟩

theorem mapGet_mapSet_self {α : Type} (m : List (K × α)) (k : K) (v : α) :
    mapGet (mapSet m k v) k = some v := by
  induction m with
  | nil => simp [mapSet, mapGet]
  | cons p rest ih =>
      obtain ⟨k0, v0⟩ := p
      by_cases h : k0 = k
      · simp [mapSet, h, mapGet]
      · simp [mapSet, h, mapGet, ih]

theorem mapGet_mapSet_ne {α : Type} (m : List (K × α)) (k k1 : K) (v : α)
    (h : k ≠ k1) : mapGet (mapSet m k v) k1 = mapGet m k1 := by
  induction m with
  | nil => simp [mapSet, mapGet, h]
  | cons p rest ih =>
      obtain ⟨k0, v0⟩ := p
      by_cases h0 : k0 = k
      · subst h0
        simp [mapSet, mapGet, h]
      · simp [mapSet, h0, mapGet, ih]

theorem mapGet_mapDelete {α : Type} (m : List (K × α)) (k k1 : K) :
    mapGet (mapDelete m k) k1 = if k = k1 then none else mapGet m k1 := by
  induction m with
  | nil => simp [mapDelete, mapGet]
  | cons p rest ih =>
      obtain ⟨k0, v0⟩ := p
      by_cases h0 : k0 = k
      · subst h0
        have hd : mapDelete ((k0, v0) :: rest) k0 = mapDelete rest k0 := by
          simp [mapDelete]
        rw [hd, ih]
        by_cases h1 : k0 = k1 <;> simp [mapGet, h1]
      · have hd : mapDelete ((k0, v0) :: rest) k = (k0, v0) :: mapDelete rest k := by
          simp [mapDelete, h0]
        rw [hd]
        by_cases h1 : k0 = k1
        · subst h1
          have hne : k ≠ k0 := fun hc => h0 hc.symm
          simp [mapGet, hne]
        · simp [mapGet, h1, ih]

/-- C3: for every state, key and current time, isExpired is undefined exactly
when the key has no entry in the expiration index, true exactly when a deadline
is recorded and now is strictly greater than it, and false otherwise.  The
source body of isExpired only reads the maps, so the embedding is a pure
function of the state: the call mutates neither mapping by construction. -/
theorem isExpired_trichotomy (s : KvState K V) (now : Nat) (k : K) :
    (isExpired s now k = none ↔ mapGet s.exMap k = none) ∧
    (isExpired s now k = some true ↔ ∃ d, mapGet s.exMap k = some d ∧ now > d) ∧
    (isExpired s now k = some false ↔ ∃ d, mapGet s.exMap k = some d ∧ ¬now > d) := by
  unfold isExpired
  cases h : mapGet s.exMap k with
  | none => simp
  | some d => simp [h]

/-- C7: with an empty expiration index one sweep invocation draws an empty
sample, evicts nothing, and the guard hitCount / sample.size >= 0.25 — the
quotient 0/0 is NaN in JS and compares false — triggers no re-sweep, so the
iterated sweep stops after a single pass with the state unchanged and no
error. -/
theorem sweep_emptyPopulation (s : KvState K V) (now : Nat) (ks : List K)
    (times : Nat → Nat) (shuffles : Nat → List K) (i : Nat)
    (h : s.exMap = []) :
    buildMapSample s.exMap ks = [] ∧
    sweepPass s now ks = ⟨s, 0, 0⟩ ∧
    resweeps (sweepPass s now ks) = false ∧
    runActive 1 s times shuffles i = some s := by
  have hp : ∀ (n : Nat) (ks1 : List K), sweepPass s n ks1 = ⟨s, 0, 0⟩ := by
    intro n ks1
    simp [sweepPass, buildMapSample, h, sweepVisit]
  refine ⟨by simp [buildMapSample, h], hp now ks, ?_, ?_⟩
  · rw [hp]
    simp [resweeps]
  · simp [runActive, hp, resweeps]

/-- C7 witness: the empty cache at time 5. -/
theorem sweep_emptyPopulation_witness :
    buildMapSample (emptyState Nat Nat).exMap [] = [] ∧
    sweepPass (emptyState Nat Nat) 5 [] = ⟨emptyState Nat Nat, 0, 0⟩ ∧
    resweeps (sweepPass (emptyState Nat Nat) 5 []) = false ∧
    runActive 1 (emptyState Nat Nat) (fun _ => 5) (fun _ => []) 0 =
      some (emptyState Nat Nat) :=
  sweep_emptyPopulation (emptyState Nat Nat) 5 [] (fun _ => 5) (fun _ => []) 0 rfl

/-- C1 fails on the code: at current time 10 the pass samples keys 1 and 2;
key 1 with deadline 5 (already past, hence expired) is left untouched in both
maps and not counted, while key 2 with deadline 20 (not yet past) is evicted
from both maps and counted as the sole hit.  The eviction test in the source is
currentTimestamp <= timestamp, the reverse of the specified direction, also
contradicting the repository's own description of active expiration as removing
expired entries. -/
theorem sweep_evicts_unexpired :
    sweepPass
      (⟨[(1, 100), (2, 200), (3, 300), (4, 400), (5, 500)],
        [(1, 5), (2, 20), (3, 9), (4, 9), (5, 9)]⟩ : KvState Nat Nat)
      10 [1, 2, 3, 4, 5] =
      ⟨⟨[(1, 100), (3, 300), (4, 400), (5, 500)],
        [(1, 5), (3, 9), (4, 9), (5, 9)]⟩, 1, 2⟩ := by decide

/-- C2 fails on the code: a single key with deadline 5, already past at every
sweep time 10, is sampled (sample size 1), not evicted, and the sweep stops at
once with zero hits; iterating therefore terminates immediately but the final
state still holds the TTL-bearing expired key — not zero expired keys. -/
theorem sweep_no_convergence :
    runActive 9 (⟨[(1, 100)], [(1, 5)]⟩ : KvState Nat Nat)
      (fun _ => 10) (fun _ => [1]) 0 = some ⟨[(1, 100)], [(1, 5)]⟩ ∧
    mapGet (⟨[(1, 100)], [(1, 5)]⟩ : KvState Nat Nat).exMap 1 = some 5 ∧
    5 < 10 := ⟨by decide, by decide, by decide⟩

/-- C8 fails on the code: the TinyKv class declares no size method — its public
interface is exactly get, set, delete, exists, isExpired, getExpiration and
cleanup — although the bundled example server invokes a size method for its
statistics endpoint and the spec lists size among the store operations. -/
theorem size_not_in_public_interface : "size" ∉ tinyKvPublicMethods := by
  decide

/-- C10: set with ex 0 leaves the expiration index exactly as it was — the
option is tested for truthiness and the number 0 is falsy — so for a key with
no previously recorded deadline, isExpired stays undefined and get keeps
returning the stored value with no purge at every observation time, even though
0 is an epoch instant in the past. -/
theorem set_exZero_neverExpires (s : KvState K V) (k : K) (v : V)
    (s1 : KvState K V)
    (hset : setOp (noSchemas K V) s k v (some 0) = Except.ok s1) :
    s1.exMap = s.exMap ∧
    (mapGet s.exMap k = none → ∀ now : Nat,
      isExpired s1 now k = none ∧ (getOp s1 now k).1 = some v ∧
      (getOp s1 now k).2 = s1) := by
  rcases s1 with ⟨st1, ex1⟩
  simp [setOp, validateOpt, noSchemas, exUpdate] at hset
  obtain ⟨hst, hex⟩ := hset
  subst hst; subst hex
  refine ⟨rfl, ?_⟩
  intro hnone now
  have he : isExpired (⟨mapSet s.storage k v, s.exMap⟩ : KvState K V) now k = none := by
    simp [isExpired, hnone]
  exact ⟨he, by simp [getOp, he, mapGet_mapSet_self], by simp [getOp, he]⟩

/-- C10 witness: set key 1 to 7 with ex 0 on the empty cache. -/
theorem set_exZero_neverExpires_witness :
    (⟨[(1, 7)], []⟩ : KvState Nat Nat).exMap = (emptyState Nat Nat).exMap ∧
    (mapGet (emptyState Nat Nat).exMap 1 = none → ∀ now : Nat,
      isExpired (⟨[(1, 7)], []⟩ : KvState Nat Nat) now 1 = none ∧
      (getOp (⟨[(1, 7)], []⟩ : KvState Nat Nat) now 1).1 = some 7 ∧
      (getOp (⟨[(1, 7)], []⟩ : KvState Nat Nat) now 1).2 = ⟨[(1, 7)], []⟩) :=
  set_exZero_neverExpires (emptyState Nat Nat) 1 7 ⟨[(1, 7)], []⟩ rfl

/-- C4 as stated is false at deadline 0: the deadline 0 is strictly in the past
at observation time 10, yet after setting key 1 to 7 with ex 0 the single get
returns the value rather than absent and exists returns true, because the falsy
0 records no TTL at all. -/
theorem set_pastDeadline_cex :
    setOp (noSchemas Nat Nat) (emptyState Nat Nat) 1 7 (some 0) =
      Except.ok ⟨[(1, 7)], []⟩ ∧
    0 < 10 ∧
    (getOp (⟨[(1, 7)], []⟩ : KvState Nat Nat) 10 1).1 = some 7 ∧
    (existsOp (⟨[(1, 7)], []⟩ : KvState Nat Nat) 10 1).1 = true :=
  ⟨rfl, by decide, by decide, by decide⟩

/-- C4 amended: for a nonzero deadline strictly in the past at observation
time, after the set a single get returns absent and purges the key from both
maps, and likewise a single exists returns false and purges the key from both
maps. -/
theorem set_pastDeadline_lazy_purge (s : KvState K V) (k : K) (v : V)
    (d now : Nat) (hd : d ≠ 0) (hpast : d < now) (s1 : KvState K V)
    (hset : setOp (noSchemas K V) s k v (some d) = Except.ok s1) :
    (getOp s1 now k).1 = none ∧
    mapGet (getOp s1 now k).2.storage k = none ∧
    mapGet (getOp s1 now k).2.exMap k = none ∧
    (existsOp s1 now k).1 = false ∧
    mapGet (existsOp s1 now k).2.storage k = none ∧
    mapGet (existsOp s1 now k).2.exMap k = none := by
  rcases s1 with ⟨st1, ex1⟩
  simp [setOp, validateOpt, noSchemas, exUpdate, hd] at hset
  obtain ⟨hst, hex⟩ := hset
  subst hst; subst hex
  have he : isExpired
      (⟨mapSet s.storage k v, mapSet s.exMap k d⟩ : KvState K V) now k = some true := by
    simp [isExpired, mapGet_mapSet_self, hpast]
  refine ⟨by simp [getOp, he], ?_, ?_, by simp [existsOp, he], ?_, ?_⟩ <;>
    simp [getOp, existsOp, he, deleteOp, mapGet_mapDelete]

/-- C4 amended witness: key 1 set to 7 with past deadline 5, observed at 10. -/
theorem set_pastDeadline_lazy_purge_witness :
    (getOp (⟨[(1, 7)], [(1, 5)]⟩ : KvState Nat Nat) 10 1).1 = none ∧
    mapGet (getOp (⟨[(1, 7)], [(1, 5)]⟩ : KvState Nat Nat) 10 1).2.storage 1 = none ∧
    mapGet (getOp (⟨[(1, 7)], [(1, 5)]⟩ : KvState Nat Nat) 10 1).2.exMap 1 = none ∧
    (existsOp (⟨[(1, 7)], [(1, 5)]⟩ : KvState Nat Nat) 10 1).1 = false ∧
    mapGet (existsOp (⟨[(1, 7)], [(1, 5)]⟩ : KvState Nat Nat) 10 1).2.storage 1 = none ∧
    mapGet (existsOp (⟨[(1, 7)], [(1, 5)]⟩ : KvState Nat Nat) 10 1).2.exMap 1 = none :=
  set_pastDeadline_lazy_purge (emptyState Nat Nat) 1 7 5 10 (by decide) (by decide)
    ⟨[(1, 7)], [(1, 5)]⟩ rfl

/-- C5 as stated is false once the persisting deadline is already past: from a
state holding key 1 with value 5 and recorded deadline 3, a set of key 1 to 9
with no options keeps deadline 3 as claimed, but the subsequent get at time 10
returns absent through the lazy purge, not the new value 9. -/
theorem set_noOpts_cex :
    setOp (noSchemas Nat Nat) (⟨[(1, 5)], [(1, 3)]⟩ : KvState Nat Nat) 1 9 none =
      Except.ok ⟨[(1, 9)], [(1, 3)]⟩ ∧
    (getOp (⟨[(1, 9)], [(1, 3)]⟩ : KvState Nat Nat) 10 1).1 = none :=
  ⟨rfl, by decide⟩

/-- C5 amended: a set with no options overwrites the value and leaves the whole
expiration index — in particular the key's previously recorded deadline —
unchanged, and get returns the new value at every observation time not strictly
past that deadline (at later times the lazy purge returns absent instead). -/
theorem set_noOpts_keeps_deadline (s : KvState K V) (k : K) (d : Nat) (v2 : V)
    (s1 : KvState K V) (hd : mapGet s.exMap k = some d)
    (hset : setOp (noSchemas K V) s k v2 none = Except.ok s1) :
    s1.exMap = s.exMap ∧ mapGet s1.exMap k = some d ∧
    ∀ now : Nat, ¬d < now → (getOp s1 now k).1 = some v2 := by
  rcases s1 with ⟨st1, ex1⟩
  simp [setOp, validateOpt, noSchemas, exUpdate] at hset
  obtain ⟨hst, hex⟩ := hset
  subst hst; subst hex
  refine ⟨rfl, hd, ?_⟩
  intro now hnow
  have he : isExpired (⟨mapSet s.storage k v2, s.exMap⟩ : KvState K V) now k
      = some false := by
    simp [isExpired, hd, hnow]
  simp [getOp, he, mapGet_mapSet_self]

/-- C5 amended witness: deadline 3 persists through a set of key 1 to 9, and
get at time 3 (not strictly past the deadline) yields 9. -/
theorem set_noOpts_keeps_deadline_witness :
    (⟨[(1, 9)], [(1, 3)]⟩ : KvState Nat Nat).exMap =
      (⟨[(1, 5)], [(1, 3)]⟩ : KvState Nat Nat).exMap ∧
    mapGet (⟨[(1, 9)], [(1, 3)]⟩ : KvState Nat Nat).exMap 1 = some 3 ∧
    ∀ now : Nat, ¬3 < now →
      (getOp (⟨[(1, 9)], [(1, 3)]⟩ : KvState Nat Nat) now 1).1 = some 9 :=
  set_noOpts_keeps_deadline (⟨[(1, 5)], [(1, 3)]⟩ : KvState Nat Nat) 1 3 9
    ⟨[(1, 9)], [(1, 3)]⟩ rfl rfl

/-- C6: a configured key validator rejecting the key, or a configured value
validator rejecting the value after the key stage passes, makes set throw the
validation error carrying exactly that validator's issue list; the throw
precedes every write, so the failure is atomic — the embedding returns no new
state on error, and on the retained state a never-written key still reads as
absent. -/
theorem set_validation_atomic (cfg : KvConfig K V) (s : KvState K V) (k : K)
    (v : V) (opts : Option Nat) :
    (∀ f issues, cfg.keySchema = some f → f k = VResult.failure issues →
      setOp cfg s k v opts = Except.error issues) ∧
    (∀ k1 f issues, validateOpt cfg.keySchema k = Except.ok k1 →
      cfg.valueSchema = some f → f v = VResult.failure issues →
      setOp cfg s k v opts = Except.error issues) ∧
    (∀ now : Nat, mapGet s.storage k = none → mapGet s.exMap k = none →
      (getOp s now k).1 = none) := by
  refine ⟨?_, ?_, ?_⟩
  · intro f issues hcfg hrej
    simp [setOp, validateOpt, hcfg, validate, hrej]
  · intro k1 f issues hkey hcfg hrej
    unfold setOp
    rw [hkey]
    simp [validateOpt, hcfg, validate, hrej]
  · intro now hst hex
    simp [getOp, isExpired, hex, hst]

/-- C6 witness: the all-rejecting value schema aborts a set of key 1 to 7 on
the empty cache with its issue list, and get of the never-written key 1 is
still absent. -/
theorem set_validation_atomic_witness :
    setOp cfgRejectValue (emptyState Nat Nat) 1 7 none =
      Except.error ["rejected"] ∧
    (getOp (emptyState Nat Nat) 3 1).1 = none :=
  ⟨(set_validation_atomic cfgRejectValue (emptyState Nat Nat) 1 7 none).2.1
      1 rejectAllSchema ["rejected"] rfl rfl rfl,
    (set_validation_atomic cfgRejectValue (emptyState Nat Nat) 1 7 none).2.2
      3 rfl rfl⟩

theorem covered_empty : Covered (emptyState K V) := by
  intro k h
  simp [emptyState, mapGet] at h

theorem covered_deleteOp (s : KvState K V) (k : K) (h : Covered s) :
    Covered (deleteOp s k) := by
  intro k1 h1
  simp only [deleteOp, mapGet_mapDelete] at h1 ⊢
  by_cases hk : k = k1
  · simp [hk] at h1
  · simp only [if_neg hk] at h1 ⊢
    exact h k1 h1

theorem covered_cleanupOp (s : KvState K V) : Covered (cleanupOp s) := by
  intro k h
  simp [cleanupOp, mapGet] at h

theorem covered_setOp (cfg : KvConfig K V) (s : KvState K V) (k : K) (v : V)
    (opts : Option Nat) (s1 : KvState K V)
    (hok : setOp cfg s k v opts = Except.ok s1) (h : Covered s) : Covered s1 := by
  rcases s1 with ⟨st1, ex1⟩
  unfold setOp at hok
  cases hkey : validateOpt cfg.keySchema k with
  | error e =>
      rw [hkey] at hok
      simp at hok
  | ok fk =>
      rw [hkey] at hok
      cases hval : validateOpt cfg.valueSchema v with
      | error e =>
          rw [hval] at hok
          simp at hok
      | ok fv =>
          rw [hval] at hok
          simp at hok
          obtain ⟨hst, hex⟩ := hok
          subst hst; subst hex
          intro k1 h1
          simp only at h1 ⊢
          by_cases hk : fk = k1
          · subst hk
            simp [mapGet_mapSet_self]
          · rw [mapGet_mapSet_ne _ _ _ _ hk]
            have h2 : mapGet s.exMap k1 ≠ none := by
              cases opts with
              | none => simpa [exUpdate] using h1
              | some e =>
                  by_cases he : e = 0
                  · simpa [exUpdate, he] using h1
                  · simp only [exUpdate, if_pos he] at h1
                    rwa [mapGet_mapSet_ne _ _ _ _ hk] at h1
            exact h k1 h2

theorem covered_sweepVisit (now : Nat) (sample : List (K × Option Nat)) :
    ∀ s : KvState K V, Covered s → Covered (sweepVisit now s sample).1 := by
  induction sample with
  | nil =>
      intro s h
      simpa [sweepVisit] using h
  | cons p rest ih =>
      intro s h
      obtain ⟨k, d⟩ := p
      by_cases hle : jsLeOpt now d = true
      · simp only [sweepVisit, hle, if_true]
        exact ih (deleteOp s k) (covered_deleteOp s k h)
      · simp only [sweepVisit, hle, if_false, Bool.false_eq_true]
        exact ih s h

theorem covered_sweepPass (s : KvState K V) (now : Nat) (ks : List K)
    (h : Covered s) : Covered (sweepPass s now ks).state := by
  have hv := covered_sweepVisit now (buildMapSample s.exMap ks) s h
  simpa [sweepPass] using hv

theorem covered_step (cfg : KvConfig K V) (s : KvState K V) (op : KvOp K V)
    (h : Covered s) : Covered (step cfg s op) := by
  cases op with
  | opGet now k =>
      by_cases he : isExpired s now k = some true
      · simp only [step, getOp, he, if_pos]
        exact covered_deleteOp s k h
      · simp only [step, getOp, he, if_neg, if_false]
        simpa [getOp, he] using h
  | opSet k v opts =>
      simp only [step]
      cases hset : setOp cfg s k v opts with
      | ok s1 => exact covered_setOp cfg s k v opts s1 hset h
      | error e => exact h
  | opDelete k =>
      exact covered_deleteOp s k h
  | opExists now k =>
      by_cases he : isExpired s now k = some true
      · simp only [step, existsOp, he, if_pos]
        exact covered_deleteOp s k h
      · simpa [step, existsOp, he] using h
  | opIsExpired now k => exact h
  | opGetExpiration k => exact h
  | opCleanup => exact covered_cleanupOp s
  | opSweep now ks => exact covered_sweepPass s now ks h

theorem covered_foldl (cfg : KvConfig K V) (ops : List (KvOp K V)) :
    ∀ s : KvState K V, Covered s → Covered (ops.foldl (step cfg) s) := by
  induction ops with
  | nil =>
      intro s h
      simpa using h
  | cons op rest ih =>
      intro s h
      simp only [List.foldl_cons]
      exact ih (step cfg s op) (covered_step cfg s op h)

/-- C9: in every state reachable from the freshly constructed cache by any
sequence of get, set, delete, exists, isExpired, getExpiration, cleanup and
active-sweep operations, a key holding an entry in the expiration index also
holds an entry in storage — every code path that removes a key from one map
removes it from the other in the same operation, and set records a deadline
only for the key whose value it has just written. -/
theorem exIndex_subset_storage (cfg : KvConfig K V) (ops : List (KvOp K V))
    (k : K) (h : mapGet (run cfg ops).exMap k ≠ none) :
    mapGet (run cfg ops).storage k ≠ none :=
  covered_foldl cfg ops (emptyState K V) covered_empty k h

/-- C9 witness: after a single set of key 1 with a deadline, key 1 is in the
expiration index and hence in storage. -/
theorem exIndex_subset_storage_witness :
    mapGet (run (noSchemas Nat Nat) [KvOp.opSet 1 7 (some 5)]).storage 1 ≠ none :=
  exIndex_subset_storage (noSchemas Nat Nat) [KvOp.opSet 1 7 (some 5)] 1 (by decide)

end TinyKv
